import Mathlib

/-!
Verification of the vehicle-number generator bot (`src/bot.py`).

The Python code is shallowly embedded: Python strings become `List Char`
(`Str`), pure functions become Lean functions, the per-user session plus the
temporary-file area become an explicit `BotState`, and fallible operations
return `Except`.  Python's `str.isalpha`/`str.isdigit`/`str.upper` are
modelled on the ASCII range (the only range the bot's validators accept).
-/

namespace VehBot

/-- Python strings, modelled as lists of characters. -/
abbrev Str := List Char

/-- Coerce a Lean string literal to the `Str` model. -/
def s2l (s : String) : Str := s.data

/-- Python `str.upper()` (ASCII letters). -/
def pyUpper (s : Str) : Str := s.map Char.toUpper

/-- Python `str.isalpha()` on the ASCII range: non-empty and all letters. -/
def pyIsAlpha (s : Str) : Bool := !s.isEmpty && s.all Char.isAlpha

/-- Python `str.isdigit()` on the ASCII range: non-empty and all digits. -/
def pyIsDigit (s : Str) : Bool := !s.isEmpty && s.all Char.isDigit

/-- Numeric value of a decimal digit character (`int` conversion step). -/
def digitVal (c : Char) : Nat := c.toNat - 48

/-- Python `int(s)` for a string of decimal digits. -/
def pyInt (s : Str) : Nat := s.foldl (fun a c => 10 * a + digitVal c) 0

/-- Python `str.strip()`: drop whitespace from both ends. -/
def pyStrip (s : Str) : Str :=
  ((s.dropWhile Char.isWhitespace).reverse.dropWhile Char.isWhitespace).reverse

/-- Python `range(a, b)` as the list `[a, a+1, ..., b-1]`. -/
def pyRange (a b : Nat) : List Nat := (List.range (b - a)).map (fun i => a + i)

/-- Fuel-bounded decimal-digit writer; `n + 1` fuel always suffices. -/
def natDigitsGo : Nat → Nat → Str
  | 0, _ => []
  | fuel + 1, n =>
    if n < 10 then [Nat.digitChar n]
    else natDigitsGo fuel (n / 10) ++ [Nat.digitChar (n % 10)]

/-- Decimal digit characters of `n`, most significant first (`str(n)`). -/
def natDigits (n : Nat) : Str := natDigitsGo (n + 1) n

/-- Python `f"{n:04d}"`: decimal digits of `n`, zero-padded to width 4. -/
def pad4 (n : Nat) : Str :=
  let d := natDigits n
  List.replicate (4 - d.length) '0' ++ d

/-- First occurrence of `sep` in a string: `some (before, after)` with the
separator removed, or `none` if `sep` does not occur.  Backs the models of
Python's `in`, `split` and `replace`. -/
def findSep (sep : Str) : Str → Option (Str × Str)
  | [] => if sep.isEmpty then some ([], []) else none
  | c :: rest =>
    if sep.isPrefixOf (c :: rest) then some ([], (c :: rest).drop sep.length)
    else (findSep sep rest).map (fun p => (c :: p.1, p.2))

/-- Python `sep in s`. -/
def hasSep (sep s : Str) : Bool := (findSep sep s).isSome

/-- Python `s.split(sep, maxsplit)` for a non-empty separator. -/
def pySplit (sep : Str) : Nat → Str → List Str
  | 0, s => [s]
  | maxsplit + 1, s =>
    match findSep sep s with
    | none => [s]
    | some (a, rest) => a :: pySplit sep maxsplit rest

/-- Python `s.split()` (no argument): split on whitespace runs, dropping
empty tokens. -/
def pySplitWs (s : Str) : List Str :=
  (s.splitOnP Char.isWhitespace).filter (fun t => !t.isEmpty)

/-- Fuel-bounded body of `replaceAll`; for a non-empty pattern each
replacement strictly shortens the remainder, so `s.length` fuel is always
enough. -/
def replaceAllGo (pat rep : Str) : Nat → Str → Str
  | 0, s => s
  | fuel + 1, s =>
    match findSep pat s with
    | none => s
    | some (a, b) => a ++ rep ++ replaceAllGo pat rep fuel b

/-- Python `s.replace(pat, rep)` for a non-empty pattern. -/
def replaceAll (pat rep s : Str) : Str := replaceAllGo pat rep s.length s

/-! ### The generator functions (`bot.py` lines 32-106) -/

/-- `generate_vehicle_numbers` (bot.py:32-65).  Returns the written file's
name and its lines (the artifact), or the error message. -/
def generate_vehicle_numbers (first_letters second_numbers third_letters
    start_digits end_digits : Str) : Except Str (Str × List Str) :=
  if first_letters.length != 2 || !pyIsAlpha first_letters then
    .error (s2l "First part must be exactly 2 letters")
  else if second_numbers.length != 2 || !pyIsDigit second_numbers then
    .error (s2l "Second part must be exactly 2 digits")
  else if third_letters.length != 2 || !pyIsAlpha third_letters then
    .error (s2l "Third part (series) must be exactly 2 letters")
  else if start_digits.length != 4 || !pyIsDigit start_digits then
    .error (s2l "Start digits must be exactly 4 digits")
  else if end_digits.length != 4 || !pyIsDigit end_digits then
    .error (s2l "End digits must be exactly 4 digits")
  else
    let start_num := pyInt start_digits
    let end_num := pyInt end_digits
    if start_num > end_num then
      .error (s2l "Start digits must be less than or equal to end digits")
    else
      let numbers := (pyRange start_num (end_num + 1)).map (fun num =>
        pyUpper first_letters ++ second_numbers ++ pyUpper third_letters ++ pad4 num)
      let filename := s2l "vehicle_numbers_" ++ pyUpper first_letters ++
        second_numbers ++ pyUpper third_letters ++ s2l ".txt"
      .ok (filename, numbers)

/-- The per-series loop of `generate_batch_vehicle_numbers` (bot.py:91-98):
strip/upper each series, reject a malformed one, otherwise append its range
of numbers. -/
def batchSeriesLoop (first_letters second_numbers : Str)
    (start_num end_num : Nat) : List Str → Except Str (List Str)
  | [] => .ok []
  | series0 :: rest =>
    let series := pyUpper (pyStrip series0)
    if series.length != 2 || !pyIsAlpha series then
      .error (s2l "Invalid series: " ++ series ++
        s2l ". Each series must be exactly 2 letters")
    else
      match batchSeriesLoop first_letters second_numbers start_num end_num rest with
      | .error e => .error e
      | .ok tail =>
        .ok ((pyRange start_num (end_num + 1)).map (fun num =>
          pyUpper first_letters ++ second_numbers ++ series ++ pad4 num) ++ tail)

/-- `generate_batch_vehicle_numbers` (bot.py:67-106). -/
def generate_batch_vehicle_numbers (first_letters second_numbers : Str)
    (series_list : List Str) (start_digits end_digits : Str) :
    Except Str (Str × List Str) :=
  if first_letters.length != 2 || !pyIsAlpha first_letters then
    .error (s2l "First part must be exactly 2 letters")
  else if second_numbers.length != 2 || !pyIsDigit second_numbers then
    .error (s2l "Second part must be exactly 2 digits")
  else if start_digits.length != 4 || !pyIsDigit start_digits then
    .error (s2l "Start digits must be exactly 4 digits")
  else if end_digits.length != 4 || !pyIsDigit end_digits then
    .error (s2l "End digits must be exactly 4 digits")
  else if series_list.isEmpty then
    .error (s2l "No series provided")
  else
    let start_num := pyInt start_digits
    let end_num := pyInt end_digits
    if start_num > end_num then
      .error (s2l "Start digits must be less than or equal to end digits")
    else
      match batchSeriesLoop first_letters second_numbers start_num end_num series_list with
      | .error e => .error e
      | .ok all_numbers =>
        .ok (s2l "vehicle_numbers_batch_" ++ pyUpper first_letters ++
          second_numbers ++ s2l ".txt", all_numbers)

/-! ### The TXT-to-CSV converter (`bot.py` lines 108-148) -/

/-- The `" - "` separator literal of `convert_txt_to_csv`. -/
def sepStr : Str := s2l " - "

/-- CSV header row written by `convert_txt_to_csv` (bot.py:122). -/
def headerRow : Str × Str := (s2l "Number", s2l "Vehicle Number")

/-- Error message for a zero-line input file (bot.py:115). -/
def emptyInputMsg : Str := s2l "The TXT file is empty"

/-- Error message when no line yields a record (bot.py:144). -/
def noValidRecordsMsg : Str :=
  s2l "No valid data found. Expected format: VEHICLE_NUMBER - PHONE_NUMBER"

/-- The per-line body of the conversion loop (bot.py:126-141): strip the
line, skip it when blank, require the literal `" - "`, split with
maxsplit 2 (a third segment is ignored), strip the first two segments and
keep the row `(phone_number, vehicle_number)` only when both are
non-empty. -/
def parseLine (raw : Str) : Option (Str × Str) :=
  let line := pyStrip raw
  if line.isEmpty then none
  else if hasSep sepStr line then
    match pySplit sepStr 2 line with
    | vehicle0 :: phone0 :: _ =>
      let vehicle_number := pyStrip vehicle0
      let phone_number := pyStrip phone0
      if !vehicle_number.isEmpty && !phone_number.isEmpty then
        some (phone_number, vehicle_number)
      else none
    | _ => none
  else none

deriving instance DecidableEq for Except

/-- Result of `convert_txt_to_csv`: the rows present in the output CSV file
(`none` when the file was never created, i.e. the zero-line early return),
and the returned `(success, error)` pair as an `Except`. -/
structure ConvertResult where
  csvContent : Option (List (Str × Str))
  outcome : Except Str Unit
deriving DecidableEq

/-- `convert_txt_to_csv` (bot.py:108-148) on the list of source lines.  The
CSV file is created and the header written before any line is examined, so
on the no-valid-records failure the file holds exactly the header. -/
def convert_txt_to_csv (lines : List Str) : ConvertResult :=
  if lines.isEmpty then
    { csvContent := none, outcome := .error emptyInputMsg }
  else
    let rows := lines.filterMap parseLine
    if rows.isEmpty then
      { csvContent := some [headerRow], outcome := .error noValidRecordsMsg }
    else
      { csvContent := some (headerRow :: rows), outcome := .ok () }

/-! ### Session state and the handlers the claims exercise -/

/-- The three user-facing workflows (`user_data['mode']`). -/
inductive Workflow | single | batch | txt2csv
deriving DecidableEq

/-- The step strings stored in `user_data['step']`. -/
inductive Step
  | first_letters | second_numbers | third_letters | series_list
  | start_digits | end_digits | confirm
  | waiting_file | ask_rename | waiting_rename
deriving DecidableEq

/-- The `context.user_data` dictionary: every key the handlers store.
(The float `file_size_mb` statistic is not modelled.) -/
structure UserData where
  mode : Option Workflow := none
  step : Option Step := none
  first_letters : Option Str := none
  second_numbers : Option Str := none
  third_letters : Option Str := none
  series_list : Option (List Str) := none
  start_digits : Option Str := none
  end_digits : Option Str := none
  csv_file_path : Option Str := none
  txt_file_path : Option Str := none
  default_filename : Option Str := none
  line_count : Option Nat := none
deriving DecidableEq

/-- Contents of a file in the temporary storage area. -/
inductive FileData
  | text (lines : List Str)
  | table (rows : List (Str × Str))
deriving DecidableEq

/-- Session state plus the temporary-file area. -/
structure BotState where
  userData : UserData := {}
  files : List (Str × FileData) := []
deriving DecidableEq

/-- `os.remove(path)` (best effort: removing a missing file is a no-op). -/
def removeFile (path : Str) (fs : List (Str × FileData)) : List (Str × FileData) :=
  fs.filter (fun f => f.1 != path)

/-- Create or overwrite a file. -/
def writeFile (path : Str) (d : FileData) (fs : List (Str × FileData)) :
    List (Str × FileData) :=
  (path, d) :: removeFile path fs

/-- Look a file up by path. -/
def lookupFile (path : Str) (fs : List (Str × FileData)) : Option FileData :=
  (fs.find? (fun f => f.1 == path)).map (fun f => f.2)

/-- `/cancel` (bot.py:257-265): `context.user_data.clear()` and a text
reply.  No file is touched. -/
def cancel_command (st : BotState) : BotState :=
  { st with userData := {} }

/-- The `cancel_gen` inline button (bot.py:600-603): clears the session. -/
def cancel_gen_callback (st : BotState) : BotState :=
  { st with userData := {} }

/-- `/start` (bot.py:154-158): clear the session, then set mode/step. -/
def start_command (st : BotState) : BotState :=
  { st with userData := { mode := some .single, step := some .first_letters } }

/-- `/batch` (bot.py:176-180). -/
def batch_command (st : BotState) : BotState :=
  { st with userData := { mode := some .batch, step := some .first_letters } }

/-- `/txt2csv` (bot.py:197-201). -/
def txt2csv_command (st : BotState) : BotState :=
  { st with userData := { mode := some .txt2csv, step := some .waiting_file } }

/-- The `csv_cancel` inline button (bot.py:692-704): delete the converted
CSV and the downloaded TXT if present, then clear the session. -/
def csv_cancel_callback (st : BotState) : BotState :=
  let fs :=
    match st.userData.csv_file_path with
    | some p => removeFile p st.files
    | none => st.files
  let fs :=
    match st.userData.txt_file_path with
    | some p => removeFile p fs
    | none => fs
  { userData := {}, files := fs }

/-- Series-list normalization of `handle_batch_generation` (bot.py:522-537):
upper-case the input, split on commas (or else on whitespace), strip each
token and keep exactly those that are two letters. -/
def normalizeSeriesList (text : Str) : List Str :=
  let t := pyUpper text
  let series_list :=
    if t.contains ',' then (t.splitOn ',').map pyStrip
    else pySplitWs t
  series_list.filterMap (fun series0 =>
    let series := pyStrip series0
    if series.length == 2 && pyIsAlpha series then some series else none)

/-- The `series_list` step of `handle_batch_generation` (bot.py:522-541):
an empty normalized list re-prompts without mutating the session; otherwise
the list is stored and the step advances. -/
def handle_batch_series_step (text : Str) (u : UserData) : UserData :=
  let valid_series := normalizeSeriesList text
  if valid_series.isEmpty then u
  else { u with series_list := some valid_series, step := some .start_digits }

/-- The conversion segment of `handle_document` (bot.py:785-841) after the
file named `temp_<file_id>.txt` with the given lines has been downloaded:
run the converter; on failure delete only the downloaded TXT and leave the
session untouched; on success record the artifact paths and statistics and
move to the rename question. -/
def handle_document_convert (file_id file_name : Str) (content : List Str)
    (st : BotState) : BotState :=
  let txt_file_path := s2l "temp_" ++ file_id ++ s2l ".txt"
  let csv_file_path := s2l "converted_" ++ file_id ++ s2l ".csv"
  let fs0 := writeFile txt_file_path (.text content) st.files
  let r := convert_txt_to_csv content
  let fs1 :=
    match r.csvContent with
    | none => fs0
    | some rows => writeFile csv_file_path (.table rows) fs0
  match r.outcome with
  | .error _ => { userData := st.userData, files := removeFile txt_file_path fs1 }
  | .ok _ =>
    let line_count := (r.csvContent.getD []).length - 1
    { userData := { st.userData with
        csv_file_path := some csv_file_path,
        txt_file_path := some txt_file_path,
        default_filename := some (replaceAll (s2l ".txt") (s2l ".csv") file_name),
        line_count := some line_count,
        step := some .ask_rename },
      files := fs1 }

/-! ### The artifact-delivery retry loops (`bot.py` lines 271-287, 630-664,
728-763, 855-898)

A transmission environment assigns each attempt index an outcome:
success, a transient transport failure (`TimedOut`/`NetworkError`), or any
other exception. -/

/-- Outcome of one send attempt. -/
inductive SendOutcome | ok | transient | fatal
deriving DecidableEq

/-- Exit status of a retry loop. -/
inductive LoopExit
  | delivered   -- `break` out of the loop after a successful send
  | exhausted   -- the last allowed attempt failed transiently
  | raised      -- an unclassified exception propagated out of the loop
deriving DecidableEq

/-- The shared `for attempt in range(max_retries)` shape: returns the
number of attempts made, the number of inter-attempt sleeps performed, and
how the loop exited.  `rem` is the number of attempts still allowed. -/
def sendLoopGo (outcome : Nat → SendOutcome) : Nat → Nat → Nat × Nat × LoopExit
  | _, 0 => (0, 0, .exhausted)
  | attempt, rem + 1 =>
    match outcome attempt with
    | .ok => (1, 0, .delivered)
    | .fatal => (1, 0, .raised)
    | .transient =>
      if rem = 0 then (1, 0, .exhausted)
      else
        let r := sendLoopGo outcome (attempt + 1) rem
        (r.1 + 1, r.2.1 + 1, r.2.2)

/-- Run a retry loop with the given budget from attempt 0. -/
def sendAttempts (outcome : Nat → SendOutcome) (max_retries : Nat) :
    Nat × Nat × LoopExit :=
  sendLoopGo outcome 0 max_retries

/-- Observable effects of one delivery: attempts made, backoff sleeps (with
their durations), `os.remove` invocations on the artifact and on the
intermediate input file, whether the session was cleared, whether a failure
was reported, whether the document was delivered, and whether an exception
propagated. -/
structure SendEffects where
  attempts : Nat
  sleeps : List Nat
  fileRemovals : Nat
  txtRemovals : Nat
  sessionCleared : Bool
  reportedFailure : Bool
  delivered : Bool
  raisedError : Bool
deriving DecidableEq

/-- The document-send loop of the `generate` / `batch_generate` callbacks
(bot.py:630-664 and 728-763): `max_retries = 3`, `asyncio.sleep(2)` between
attempts, retry only on `TimedOut`/`NetworkError`.  On exhaustion: report,
remove the file, clear the session.  On success: remove the file, reply,
clear the session.  Any other exception propagates with no cleanup. -/
def button_generate_send (outcome : Nat → SendOutcome) : SendEffects :=
  let r := sendAttempts outcome 3
  match r.2.2 with
  | .delivered =>
    { attempts := r.1, sleeps := List.replicate r.2.1 2, fileRemovals := 1,
      txtRemovals := 0, sessionCleared := true, reportedFailure := false,
      delivered := true, raisedError := false }
  | .exhausted =>
    { attempts := r.1, sleeps := List.replicate r.2.1 2, fileRemovals := 1,
      txtRemovals := 0, sessionCleared := true, reportedFailure := true,
      delivered := false, raisedError := false }
  | .raised =>
    { attempts := r.1, sleeps := List.replicate r.2.1 2, fileRemovals := 0,
      txtRemovals := 0, sessionCleared := false, reportedFailure := false,
      delivered := false, raisedError := true }

/-- `send_csv_file` (bot.py:855-898): same 3-attempt loop with 2-unit
backoff; both the CSV artifact and the intermediate TXT are removed once on
exhaustion and once on success, and the session is cleared. -/
def send_csv_file_send (outcome : Nat → SendOutcome) : SendEffects :=
  let r := sendAttempts outcome 3
  match r.2.2 with
  | .delivered =>
    { attempts := r.1, sleeps := List.replicate r.2.1 2, fileRemovals := 1,
      txtRemovals := 1, sessionCleared := true, reportedFailure := false,
      delivered := true, raisedError := false }
  | .exhausted =>
    { attempts := r.1, sleeps := List.replicate r.2.1 2, fileRemovals := 1,
      txtRemovals := 1, sessionCleared := true, reportedFailure := true,
      delivered := false, raisedError := false }
  | .raised =>
    { attempts := r.1, sleeps := List.replicate r.2.1 2, fileRemovals := 0,
      txtRemovals := 0, sessionCleared := false, reportedFailure := false,
      delivered := false, raisedError := true }

/-- `safe_reply` (bot.py:271-287): a plain text reply with
`max_retries = 2` and `asyncio.sleep(1)`; an unclassified exception is
caught and merely yields `False` (no retry, nothing raised, no cleanup). -/
def safe_reply_send (outcome : Nat → SendOutcome) : SendEffects :=
  let r := sendAttempts outcome 2
  match r.2.2 with
  | .delivered =>
    { attempts := r.1, sleeps := List.replicate r.2.1 1, fileRemovals := 0,
      txtRemovals := 0, sessionCleared := false, reportedFailure := false,
      delivered := true, raisedError := false }
  | .exhausted =>
    { attempts := r.1, sleeps := List.replicate r.2.1 1, fileRemovals := 0,
      txtRemovals := 0, sessionCleared := false, reportedFailure := true,
      delivered := false, raisedError := false }
  | .raised =>
    { attempts := r.1, sleeps := List.replicate r.2.1 1, fileRemovals := 0,
      txtRemovals := 0, sessionCleared := false, reportedFailure := true,
      delivered := false, raisedError := false }

/-! ### Definitions used to state the claims -/

/-- The identifier sequence `generate_vehicle_numbers` emits for one series
(the body of the comprehension at bot.py:55-57). -/
def singleNums (first_letters second_numbers start_digits end_digits s : Str) :
    List Str :=
  (pyRange (pyInt start_digits) (pyInt end_digits + 1)).map (fun num =>
    pyUpper first_letters ++ second_numbers ++ pyUpper s ++ pad4 num)

/-- Stated from the claim: a source line is retained iff, after trimming,
it is non-blank, contains the literal `" - "`, and its first two trimmed
segments are both non-empty. -/
def retainsLine (raw : Str) : Bool :=
  let t := pyStrip raw
  !t.isEmpty && hasSep sepStr t &&
    !(pyStrip ((pySplit sepStr 2 t).getD 0 [])).isEmpty &&
    !(pyStrip ((pySplit sepStr 2 t).getD 1 [])).isEmpty

/-- Stated from the claim: the output row of a retained line is
`(second segment, first segment)`; any third segment is ignored. -/
def rowOfLine (raw : Str) : Str × Str :=
  let t := pyStrip raw
  (pyStrip ((pySplit sepStr 2 t).getD 1 []), pyStrip ((pySplit sepStr 2 t).getD 0 []))

/-- A session sitting in the TextToTable rename sub-phase: `/txt2csv` was
started and a one-line document was converted successfully, so the
converted CSV and the downloaded TXT are both on disk. -/
def renamePhaseState : BotState :=
  handle_document_convert (s2l "FID") (s2l "data.txt")
    [s2l "AB12CD0001 - 555"]
    (txt2csv_command {})

/-! ### Character-level facts -/

theorem isDigit_not_whitespace (c : Char) (h : c.isDigit = true) :
    c.isWhitespace = false := by
  by_contra hw
  rw [Bool.not_eq_false] at hw
  simp only [Char.isWhitespace, Bool.or_eq_true, decide_eq_true_eq] at hw
  rcases hw with ((rfl | rfl) | rfl) | rfl <;> simp [Char.isDigit] at h

theorem isDigit_ne_space (c : Char) (h : c.isDigit = true) : c ≠ ' ' := by
  rintro rfl
  simp [Char.isDigit] at h

theorem isAlpha_not_whitespace (c : Char) (h : c.isAlpha = true) :
    c.isWhitespace = false := by
  by_contra hw
  rw [Bool.not_eq_false] at hw
  simp only [Char.isWhitespace, Bool.or_eq_true, decide_eq_true_eq] at hw
  rcases hw with ((rfl | rfl) | rfl) | rfl <;>
    simp [Char.isAlpha, Char.isUpper, Char.isLower] at h

theorem isAlpha_ne_space (c : Char) (h : c.isAlpha = true) : c ≠ ' ' := by
  rintro rfl
  simp [Char.isAlpha, Char.isUpper, Char.isLower] at h

theorem toUpper_isAlpha (c : Char) (h : c.isAlpha = true) :
    (Char.toUpper c).isAlpha = true := by
  by_cases hc : Char.toNat c ≥ 97 ∧ Char.toNat c ≤ 122
  · have hrw : Char.toUpper c = Char.ofNat (Char.toNat c - 32) := by
      rw [Char.toUpper]
      simp [hc]
    rw [hrw]
    have h1 : 65 ≤ Char.toNat c - 32 := by omega
    have h2 : Char.toNat c - 32 ≤ 90 := by omega
    generalize Char.toNat c - 32 = m at h1 h2
    interval_cases m <;> decide
  · have hrw : Char.toUpper c = c := by
      rw [Char.toUpper]
      simp [hc]
    rw [hrw]
    exact h

theorem digitChar_isDigit (m : Nat) (h : m < 10) :
    (Nat.digitChar m).isDigit = true := by
  interval_cases m <;> decide

theorem digitVal_digitChar (m : Nat) (h : m < 10) :
    digitVal (Nat.digitChar m) = m := by
  interval_cases m <;> decide

theorem digitVal_le_nine (c : Char) (h : c.isDigit = true) : digitVal c ≤ 9 := by
  simp only [Char.isDigit, Bool.and_eq_true, decide_eq_true_eq] at h
  have h57 : c.val.toNat ≤ 57 := by
    refine UInt32.toNat_le_of_le (m := 57) (by norm_num [UInt32.size]) ?_
    exact h.2
  simp only [digitVal, Char.toNat]
  omega

/-! ### `natDigits`, `pad4` and `pyInt` facts -/

theorem natDigits_ne_nil (n : Nat) : natDigits n ≠ [] := by
  rw [natDigits, natDigitsGo]
  split <;> simp

theorem natDigitsGo_all_digit :
    ∀ fuel n, n < fuel → ∀ c ∈ natDigitsGo fuel n, c.isDigit = true := by
  intro fuel
  induction fuel with
  | zero => omega
  | succ fuel ih =>
    intro n hn c hc
    rw [natDigitsGo] at hc
    split at hc
    · next h =>
      simp only [List.mem_singleton] at hc
      subst hc
      exact digitChar_isDigit n h
    · next h =>
      simp only [List.mem_append, List.mem_singleton] at hc
      have hdiv : n / 10 < n := Nat.div_lt_self (by omega) (by omega)
      rcases hc with hc | rfl
      · exact ih (n / 10) (by omega) c hc
      · exact digitChar_isDigit (n % 10) (Nat.mod_lt n (by omega))

theorem natDigits_all_digit (n : Nat) :
    ∀ c ∈ natDigits n, c.isDigit = true :=
  natDigitsGo_all_digit (n + 1) n (by omega)

theorem pyInt_append_singleton (l : Str) (c : Char) :
    pyInt (l ++ [c]) = 10 * pyInt l + digitVal c := by
  simp [pyInt, List.foldl_append]

theorem natDigitsGo_pyInt :
    ∀ fuel n, n < fuel → pyInt (natDigitsGo fuel n) = n := by
  intro fuel
  induction fuel with
  | zero => omega
  | succ fuel ih =>
    intro n hn
    rw [natDigitsGo]
    split
    · next h =>
      simp [pyInt, digitVal_digitChar n h]
    · next h =>
      have hdiv : n / 10 < n := Nat.div_lt_self (by omega) (by omega)
      rw [pyInt_append_singleton, ih (n / 10) (by omega),
        digitVal_digitChar (n % 10) (Nat.mod_lt n (by omega))]
      omega

theorem pyInt_natDigits (n : Nat) : pyInt (natDigits n) = n :=
  natDigitsGo_pyInt (n + 1) n (by omega)

theorem pyInt_replicate_zero_append (k : Nat) (l : Str) :
    pyInt (List.replicate k '0' ++ l) = pyInt l := by
  induction k with
  | zero => simp
  | succ k ih =>
    have : List.replicate (k + 1) '0' ++ l = '0' :: (List.replicate k '0' ++ l) := by
      simp [List.replicate_succ]
    rw [this]
    simp only [pyInt, List.foldl_cons] at ih ⊢
    have hz : 10 * 0 + digitVal '0' = 0 := by decide
    rw [hz]
    exact ih

theorem pyInt_pad4 (n : Nat) : pyInt (pad4 n) = n := by
  rw [pad4, pyInt_replicate_zero_append, pyInt_natDigits]

theorem pad4_all_digit (n : Nat) : ∀ c ∈ pad4 n, c.isDigit = true := by
  intro c hc
  rw [pad4, List.mem_append] at hc
  rcases hc with hc | hc
  · rw [List.eq_of_mem_replicate hc]
    decide
  · exact natDigits_all_digit n c hc

theorem natDigitsGo_length_le :
    ∀ fuel k n, n < fuel → n < 10 ^ (k + 1) →
      (natDigitsGo fuel n).length ≤ k + 1 := by
  intro fuel
  induction fuel with
  | zero => omega
  | succ fuel ih =>
    intro k n hn hk
    rw [natDigitsGo]
    split
    · simp
    · next h =>
      rcases k with _ | k
      · omega
      · have hdiv10 : n / 10 < 10 ^ (k + 1) := by
          have h10 : (10:Nat) ^ (k + 2) = 10 ^ (k + 1) * 10 := by ring
          rw [h10] at hk
          omega
        have hdiv : n / 10 < n := Nat.div_lt_self (by omega) (by omega)
        have := ih k (n / 10) (by omega) hdiv10
        simp only [List.length_append, List.length_singleton]
        omega

theorem natDigits_length_le (k : Nat) :
    ∀ n, n < 10 ^ (k + 1) → (natDigits n).length ≤ k + 1 := by
  intro n hn
  exact natDigitsGo_length_le (n + 1) k n (by omega) hn

theorem pad4_length (n : Nat) (h : n < 10000) : (pad4 n).length = 4 := by
  have hle : (natDigits n).length ≤ 4 := natDigits_length_le 3 n (by norm_num; omega)
  rw [pad4]
  simp only [List.length_append, List.length_replicate]
  omega

theorem pyInt_lt_pow (s : Str) (h : ∀ c ∈ s, c.isDigit = true) :
    pyInt s < 10 ^ s.length := by
  suffices haux : ∀ (l : Str) (a k : Nat), a < 10 ^ k →
      (∀ c ∈ l, c.isDigit = true) →
      l.foldl (fun a c => 10 * a + digitVal c) a < 10 ^ (k + l.length) by
    simpa using haux s 0 0 (by norm_num) h
  intro l
  induction l with
  | nil => intro a k ha _; simpa using ha
  | cons c rest ih =>
    intro a k ha hd
    simp only [List.foldl_cons, List.length_cons]
    have hc : digitVal c ≤ 9 := digitVal_le_nine c (hd c (by simp))
    have ha' : 10 * a + digitVal c < 10 ^ (k + 1) := by
      have : (10:Nat) ^ (k + 1) = 10 * 10 ^ k := by ring
      omega
    have := ih (10 * a + digitVal c) (k + 1) ha' (fun x hx => hd x (by simp [hx]))
    have harr : k + 1 + rest.length = k + (rest.length + 1) := by omega
    rw [harr] at this
    exact this

/-! ### Evaluating the generators under valid inputs -/

theorem generate_single_eq (first second third sd ed : Str)
    (h1 : first.length = 2) (h2 : pyIsAlpha first = true)
    (h3 : second.length = 2) (h4 : pyIsDigit second = true)
    (h5 : third.length = 2) (h6 : pyIsAlpha third = true)
    (h7 : sd.length = 4) (h8 : pyIsDigit sd = true)
    (h9 : ed.length = 4) (h10 : pyIsDigit ed = true)
    (h11 : pyInt sd ≤ pyInt ed) :
    generate_vehicle_numbers first second third sd ed =
      .ok (s2l "vehicle_numbers_" ++ pyUpper first ++ second ++ pyUpper third ++ s2l ".txt",
        singleNums first second sd ed third) := by
  rw [generate_vehicle_numbers, singleNums]
  simp [h1, h2, h3, h4, h5, h6, h7, h8, h9, h10, Nat.not_lt.mpr h11]

theorem singleNums_length (first second sd ed s : Str)
    (h : pyInt sd ≤ pyInt ed) :
    (singleNums first second sd ed s).length = pyInt ed - pyInt sd + 1 := by
  rw [singleNums]
  simp [pyRange]
  omega

theorem singleNums_get (first second sd ed s : Str) (i : Nat)
    (hi : i < (singleNums first second sd ed s).length) :
    (singleNums first second sd ed s).get ⟨i, hi⟩ =
      pyUpper first ++ second ++ pyUpper s ++ pad4 (pyInt sd + i) := by
  simp [singleNums, pyRange] at hi ⊢

theorem drop_stem (f s t x : Str)
    (hf : f.length = 2) (hs : s.length = 2) (ht : t.length = 2) :
    (f ++ s ++ t ++ x).drop 6 = x := by
  have hassoc : f ++ s ++ t ++ x = (f ++ (s ++ t)) ++ x := by
    simp [List.append_assoc]
  have hlen : (f ++ (s ++ t)).length = 6 := by
    simp [hf, hs, ht]
  rw [hassoc, ← hlen, List.drop_left]

theorem pyUpper_length (s : Str) : (pyUpper s).length = s.length := by
  simp [pyUpper]

/-- C1: for every valid input with `start ≤ end`, `generate_vehicle_numbers`
succeeds and produces exactly `end - start + 1` identifiers; the `i`-th one
is the upper-cased prefix, the code, the upper-cased series and the 4-digit
zero-padded value `start + i`, and the numeric suffixes are strictly
increasing. -/
theorem c1_generate_single_correct (first second third sd ed : Str)
    (h1 : first.length = 2) (h2 : pyIsAlpha first = true)
    (h3 : second.length = 2) (h4 : pyIsDigit second = true)
    (h5 : third.length = 2) (h6 : pyIsAlpha third = true)
    (h7 : sd.length = 4) (h8 : pyIsDigit sd = true)
    (h9 : ed.length = 4) (h10 : pyIsDigit ed = true)
    (h11 : pyInt sd ≤ pyInt ed) :
    ∃ fn nums, generate_vehicle_numbers first second third sd ed = .ok (fn, nums) ∧
      nums.length = pyInt ed - pyInt sd + 1 ∧
      (∀ i (hi : i < nums.length), nums.get ⟨i, hi⟩ =
        pyUpper first ++ second ++ pyUpper third ++ pad4 (pyInt sd + i)) ∧
      (∀ i j (hi : i < nums.length) (hj : j < nums.length), i < j →
        pyInt ((nums.get ⟨i, hi⟩).drop 6) < pyInt ((nums.get ⟨j, hj⟩).drop 6)) := by
  refine ⟨_, _, generate_single_eq first second third sd ed
    h1 h2 h3 h4 h5 h6 h7 h8 h9 h10 h11, ?_, ?_, ?_⟩
  · exact singleNums_length first second sd ed third h11
  · intro i hi
    exact singleNums_get first second sd ed third i hi
  · intro i j hi hj hij
    rw [singleNums_get first second sd ed third i hi,
      singleNums_get first second sd ed third j hj,
      drop_stem _ _ _ _ (by rw [pyUpper_length, h1]) h3 (by rw [pyUpper_length, h5]),
      drop_stem _ _ _ _ (by rw [pyUpper_length, h1]) h3 (by rw [pyUpper_length, h5]),
      pyInt_pad4, pyInt_pad4]
    omega

/-- Witness for C1 at `("AB", "12", "CD", "0001", "0003")`. -/
theorem c1_generate_single_correct_witness :
    ∃ fn nums,
      generate_vehicle_numbers (s2l "AB") (s2l "12") (s2l "CD") (s2l "0001") (s2l "0003") =
        .ok (fn, nums) ∧ nums.length = 3 := by
  obtain ⟨fn, nums, hok, hlen, -, -⟩ :=
    c1_generate_single_correct (s2l "AB") (s2l "12") (s2l "CD") (s2l "0001") (s2l "0003")
      (by decide) (by decide) (by decide) (by decide) (by decide) (by decide)
      (by decide) (by decide) (by decide) (by decide) (by decide)
  refine ⟨fn, nums, hok, ?_⟩
  rw [hlen]
  decide

/-- C2: with all shape rules satisfied and a non-empty series list, but
`start > end` numerically, both generators fail with the range error and
return no artifact. -/
theorem c2_range_error (first second third sd ed : Str) (series_list : List Str)
    (h1 : first.length = 2) (h2 : pyIsAlpha first = true)
    (h3 : second.length = 2) (h4 : pyIsDigit second = true)
    (h5 : third.length = 2) (h6 : pyIsAlpha third = true)
    (h7 : sd.length = 4) (h8 : pyIsDigit sd = true)
    (h9 : ed.length = 4) (h10 : pyIsDigit ed = true)
    (hL : series_list ≠ [])
    (hgt : pyInt ed < pyInt sd) :
    generate_vehicle_numbers first second third sd ed =
      .error (s2l "Start digits must be less than or equal to end digits") ∧
    generate_batch_vehicle_numbers first second series_list sd ed =
      .error (s2l "Start digits must be less than or equal to end digits") := by
  constructor
  · rw [generate_vehicle_numbers]
    simp [h1, h2, h3, h4, h5, h6, h7, h8, h9, h10, hgt]
  · rw [generate_batch_vehicle_numbers]
    simp [h1, h2, h3, h4, h7, h8, h9, h10, hgt, hL]

/-- Witness for C2 at `("AB", "12", "CD", "0005", "0003")`, series `[CD]`. -/
theorem c2_range_error_witness :
    generate_vehicle_numbers (s2l "AB") (s2l "12") (s2l "CD") (s2l "0005") (s2l "0003") =
      .error (s2l "Start digits must be less than or equal to end digits") ∧
    generate_batch_vehicle_numbers (s2l "AB") (s2l "12") [s2l "CD"] (s2l "0005") (s2l "0003") =
      .error (s2l "Start digits must be less than or equal to end digits") :=
  c2_range_error (s2l "AB") (s2l "12") (s2l "CD") (s2l "0005") (s2l "0003") [s2l "CD"]
    (by decide) (by decide) (by decide) (by decide) (by decide) (by decide)
    (by decide) (by decide) (by decide) (by decide) (by decide) (by decide)

theorem pyIsAlpha_pyUpper (s : Str) (hne : s ≠ []) (h : pyIsAlpha s = true) :
    pyIsAlpha (pyUpper s) = true := by
  rw [pyIsAlpha, Bool.and_eq_true] at h ⊢
  constructor
  · rcases s with _ | ⟨c, t⟩
    · exact absurd rfl hne
    · simp [pyUpper]
  · rw [List.all_eq_true] at h ⊢
    intro c hc
    rw [pyUpper, List.mem_map] at hc
    obtain ⟨c0, hc0, rfl⟩ := hc
    exact toUpper_isAlpha c0 (h.2 c0 hc0)

theorem batchSeriesLoop_ok (first second sd ed : Str) (L : List Str)
    (hs : ∀ x ∈ L, x.length = 2 ∧ pyIsAlpha x = true ∧ pyStrip x = x) :
    batchSeriesLoop first second (pyInt sd) (pyInt ed) L =
      .ok (L.flatMap (singleNums first second sd ed)) := by
  induction L with
  | nil => rfl
  | cons x rest ih =>
    obtain ⟨hx2, hxa, hxs⟩ := hs x (by simp)
    have hxne : x ≠ [] := by
      intro h
      rw [h] at hx2
      simp at hx2
    have hulen : (pyUpper (pyStrip x)).length = 2 := by
      rw [hxs, pyUpper_length, hx2]
    have hua : pyIsAlpha (pyUpper (pyStrip x)) = true := by
      rw [hxs]
      exact pyIsAlpha_pyUpper x hxne hxa
    rw [batchSeriesLoop]
    simp only [hulen, hua]
    rw [ih (fun y hy => hs y (by simp [hy]))]
    simp [singleNums, hxs]

theorem flatMap_singleNums_length (first second sd ed : Str) (L : List Str)
    (h11 : pyInt sd ≤ pyInt ed) :
    (L.flatMap (singleNums first second sd ed)).length =
      (pyInt ed - pyInt sd + 1) * L.length := by
  induction L with
  | nil => simp
  | cons x rest ih =>
    simp only [List.flatMap_cons, List.length_append, List.length_cons]
    rw [ih, singleNums_length first second sd ed x h11]
    ring

/-- C3: with a valid stem, a non-empty list of already-normalized series
tokens and `start ≤ end`, `generate_batch_vehicle_numbers` succeeds and its
output is exactly the concatenation, in list order, of the
`generate_vehicle_numbers` sequence of each series, of total length
`(end - start + 1) * |seriesList|`. -/
theorem c3_generate_batch_concat (first second sd ed : Str) (series_list : List Str)
    (h1 : first.length = 2) (h2 : pyIsAlpha first = true)
    (h3 : second.length = 2) (h4 : pyIsDigit second = true)
    (h7 : sd.length = 4) (h8 : pyIsDigit sd = true)
    (h9 : ed.length = 4) (h10 : pyIsDigit ed = true)
    (hL : series_list ≠ [])
    (hs : ∀ x ∈ series_list, x.length = 2 ∧ pyIsAlpha x = true ∧ pyStrip x = x)
    (h11 : pyInt sd ≤ pyInt ed) :
    generate_batch_vehicle_numbers first second series_list sd ed =
      .ok (s2l "vehicle_numbers_batch_" ++ pyUpper first ++ second ++ s2l ".txt",
        series_list.flatMap (singleNums first second sd ed)) ∧
    (∀ x ∈ series_list, generate_vehicle_numbers first second x sd ed =
      .ok (s2l "vehicle_numbers_" ++ pyUpper first ++ second ++ pyUpper x ++ s2l ".txt",
        singleNums first second sd ed x)) ∧
    (series_list.flatMap (singleNums first second sd ed)).length =
      (pyInt ed - pyInt sd + 1) * series_list.length := by
  refine ⟨?_, ?_, ?_⟩
  · rw [generate_batch_vehicle_numbers]
    simp only [h1, h2, h3, h4, h7, h8, h9, h10]
    rw [batchSeriesLoop_ok first second sd ed series_list hs]
    simp [hL, Nat.not_lt.mpr h11]
  · intro x hx
    obtain ⟨hx2, hxa, -⟩ := hs x hx
    exact generate_single_eq first second x sd ed h1 h2 h3 h4 hx2 hxa h7 h8 h9 h10 h11
  · exact flatMap_singleNums_length first second sd ed series_list h11

/-- Witness for C3: series list `[CD, EF]`, range `0001`-`0003` yields the
six identifiers `AB12CD0001..AB12CD0003, AB12EF0001..AB12EF0003`. -/
theorem c3_generate_batch_concat_witness :
    generate_batch_vehicle_numbers (s2l "AB") (s2l "12") [s2l "CD", s2l "EF"]
        (s2l "0001") (s2l "0003") =
      .ok (s2l "vehicle_numbers_batch_AB12.txt",
        [s2l "AB12CD0001", s2l "AB12CD0002", s2l "AB12CD0003",
         s2l "AB12EF0001", s2l "AB12EF0002", s2l "AB12EF0003"]) := by
  obtain ⟨hok, -, -⟩ :=
    c3_generate_batch_concat (s2l "AB") (s2l "12") (s2l "0001") (s2l "0003")
      [s2l "CD", s2l "EF"]
      (by decide) (by decide) (by decide) (by decide) (by decide) (by decide)
      (by decide) (by decide) (by decide) (by decide) (by decide)
  rw [hok]
  decide

/-! ### C4: series-list normalization -/

/-- C4 counterexample: the normalization does not drop duplicate tokens.
`"CD,CD"` normalizes to `[CD, CD]`, not to the claimed `[CD]`. -/
theorem c4_duplicates_kept_counterexample :
    normalizeSeriesList (s2l "CD,CD") = [s2l "CD", s2l "CD"] ∧
    normalizeSeriesList (s2l "CD,CD") ≠ [s2l "CD"] := by
  decide

/-- C4 (amended): the normalization upper-cases the input, silently drops
invalid tokens (not exactly two letters) but retains duplicates, and the
step re-prompts without mutating the session exactly when the resulting
list is empty; otherwise it stores the list and advances the step. -/
theorem c4_series_normalization_amended :
    (∀ text s, s ∈ normalizeSeriesList text →
      s.length = 2 ∧ pyIsAlpha s = true) ∧
    (∀ text u, (normalizeSeriesList text).isEmpty = true →
      handle_batch_series_step text u = u) ∧
    (∀ text u, (normalizeSeriesList text).isEmpty = false →
      handle_batch_series_step text u =
        { u with series_list := some (normalizeSeriesList text),
                 step := some Step.start_digits }) ∧
    normalizeSeriesList (s2l "cd,zz9,cd") = [s2l "CD", s2l "CD"] := by
  refine ⟨?_, ?_, ?_, by decide⟩
  · intro text s hs
    rw [normalizeSeriesList] at hs
    simp only [List.mem_filterMap] at hs
    obtain ⟨a, -, hfa⟩ := hs
    split at hfa
    · next hcond =>
      rw [Bool.and_eq_true, beq_iff_eq] at hcond
      cases hfa
      exact hcond
    · exact absurd hfa (by simp)
  · intro text u h
    rw [handle_batch_series_step]
    simp [h]
  · intro text u h
    rw [handle_batch_series_step]
    simp [h]

/-- Witness for C4 (amended) at concrete inputs. -/
theorem c4_series_normalization_amended_witness :
    ((s2l "CD").length = 2 ∧ pyIsAlpha (s2l "CD") = true) ∧
    handle_batch_series_step (s2l "zz9") {} = {} ∧
    handle_batch_series_step (s2l "CD EF") {} =
      { series_list := some [s2l "CD", s2l "EF"],
        step := some Step.start_digits } := by
  obtain ⟨h1, h2, h3, -⟩ := c4_series_normalization_amended
  refine ⟨h1 (s2l "cd,zz9,cd") (s2l "CD") (by decide),
    h2 (s2l "zz9") {} (by decide), ?_⟩
  rw [h3 (s2l "CD EF") {} (by decide)]
  decide

/-! ### C5 and C6: the line converter -/

theorem parseLine_characterization (raw : Str) :
    parseLine raw = if retainsLine raw then some (rowOfLine raw) else none := by
  rw [parseLine, retainsLine, rowOfLine]
  by_cases he : (pyStrip raw).isEmpty
  · simp [he]
  · by_cases hsep : hasSep sepStr (pyStrip raw)
    · rcases hsplit : pySplit sepStr 2 (pyStrip raw) with _ | ⟨v, _ | ⟨p, rest2⟩⟩
      · simp [he, hsep, hsplit, pyStrip]
      · simp [he, hsep, hsplit, pyStrip]
      · by_cases hv : (pyStrip v).isEmpty <;> by_cases hp : (pyStrip p).isEmpty <;>
          simp [he, hsep, hsplit, hv, hp]
    · simp [he, hsep]

theorem filterMap_parseLine_eq (lines : List Str) :
    lines.filterMap parseLine = (lines.filter retainsLine).map rowOfLine := by
  induction lines with
  | nil => rfl
  | cons l rest ih =>
    rw [List.filterMap_cons, List.filter_cons]
    by_cases h : retainsLine l = true
    · simp [parseLine_characterization, h, ih]
    · simp [parseLine_characterization, h, ih]

/-- C5: the converter keeps exactly the non-blank `" - "` lines whose first
two trimmed segments are non-empty, producing `(second, first)` rows in
input order and ignoring any third segment; on the claim's four-line
example it yields exactly the two expected records. -/
theorem c5_convert_retention :
    (∀ lines : List Str,
      lines.filterMap parseLine = (lines.filter retainsLine).map rowOfLine) ∧
    (∀ lines : List Str, lines ≠ [] → lines.filter retainsLine ≠ [] →
      convert_txt_to_csv lines =
        { csvContent := some (headerRow :: (lines.filter retainsLine).map rowOfLine),
          outcome := .ok () }) ∧
    convert_txt_to_csv
        [s2l "AB12CD0001 - 555 - extra", s2l "", s2l "bad line", s2l "XY99ZZ0002 - 777"] =
      { csvContent := some [headerRow,
          (s2l "555", s2l "AB12CD0001"), (s2l "777", s2l "XY99ZZ0002")],
        outcome := .ok () } := by
  refine ⟨filterMap_parseLine_eq, ?_, by decide⟩
  intro lines hne hkept
  rw [convert_txt_to_csv]
  have h1 : lines.isEmpty = false := by
    simpa [List.isEmpty_iff] using hne
  have h2 : (lines.filterMap parseLine).isEmpty = false := by
    rw [filterMap_parseLine_eq]
    simpa [List.isEmpty_iff] using hkept
  simp [h1, h2, filterMap_parseLine_eq]
  rcases hx : lines.filter retainsLine with _ | ⟨x, xs⟩
  · exact absurd hx hkept
  · have hxm : x ∈ lines.filter retainsLine := by rw [hx]; simp
    rw [List.mem_filter] at hxm
    exact ⟨x, hxm.1, hxm.2⟩

/-- Witness for C5 at the claim's example input. -/
theorem c5_convert_retention_witness :
    convert_txt_to_csv
        [s2l "AB12CD0001 - 555 - extra", s2l "", s2l "bad line", s2l "XY99ZZ0002 - 777"] =
      { csvContent := some (headerRow ::
          ([s2l "AB12CD0001 - 555 - extra", s2l "", s2l "bad line",
            s2l "XY99ZZ0002 - 777"].filter retainsLine).map rowOfLine),
        outcome := .ok () } := by
  obtain ⟨-, h2, -⟩ := c5_convert_retention
  exact h2 _ (by decide) (by decide)

/-- C6: `convert_txt_to_csv` fails with the empty-input error exactly on a
zero-line source, and with the no-valid-records error exactly on a
non-empty source whose lines all fail to parse; the two errors are
distinct. -/
theorem c6_convert_error_conditions :
    (∀ lines : List Str,
      (convert_txt_to_csv lines).outcome = .error emptyInputMsg ↔ lines = []) ∧
    (∀ lines : List Str,
      (convert_txt_to_csv lines).outcome = .error noValidRecordsMsg ↔
        lines ≠ [] ∧ lines.filterMap parseLine = []) ∧
    emptyInputMsg ≠ noValidRecordsMsg := by
  refine ⟨?_, ?_, by decide⟩
  · intro lines
    rw [convert_txt_to_csv]
    by_cases h1 : lines.isEmpty
    · simp [h1, List.isEmpty_iff.mp h1]
    · have hne : lines ≠ [] := by simpa [List.isEmpty_iff] using h1
      by_cases h2 : (lines.filterMap parseLine).isEmpty
      · simp only [h1, Bool.false_eq_true, if_false, h2, if_true]
        constructor
        · intro h
          exact absurd (Except.error.inj h) (by decide)
        · intro h
          exact absurd h hne
      · simp [h1, h2, hne]
  · intro lines
    rw [convert_txt_to_csv]
    by_cases h1 : lines.isEmpty
    · have := List.isEmpty_iff.mp h1
      subst this
      simp only [List.isEmpty_nil, if_true]
      constructor
      · intro h
        exact absurd (Except.error.inj h) (by decide)
      · rintro ⟨h, -⟩
        exact absurd rfl h
    · have hne : lines ≠ [] := by simpa [List.isEmpty_iff] using h1
      by_cases h2 : (lines.filterMap parseLine).isEmpty
      · simp [h1, h2, hne, List.isEmpty_iff.mp h2]
      · simp only [h1, Bool.false_eq_true, if_false, h2, if_true]
        have : lines.filterMap parseLine ≠ [] := by
          simpa [List.isEmpty_iff] using h2
        simp [this]

/-- Witness for C6: a zero-line source and an all-blank one-line source. -/
theorem c6_convert_error_conditions_witness :
    (convert_txt_to_csv []).outcome = .error emptyInputMsg ∧
    (convert_txt_to_csv [s2l "   "]).outcome = .error noValidRecordsMsg := by
  obtain ⟨h1, h2, -⟩ := c6_convert_error_conditions
  exact ⟨(h1 []).mpr rfl, (h2 [s2l "   "]).mpr ⟨by decide, by decide⟩⟩

/-! ### C7: round-tripping generated identifiers through the converter -/

theorem findSep_cons (sep : Str) (c : Char) (rest : Str) :
    findSep sep (c :: rest) =
      if sep.isPrefixOf (c :: rest) then some ([], (c :: rest).drop sep.length)
      else (findSep sep rest).map (fun p => (c :: p.1, p.2)) := rfl

theorem pySplit_succ (sep : Str) (ms : Nat) (s : Str) :
    pySplit sep (ms + 1) s =
      match findSep sep s with
      | none => [s]
      | some (a, rest) => a :: pySplit sep ms rest := rfl

theorem mem_of_head?_eq_some {α : Type} {l : List α} {a : α}
    (h : l.head? = some a) : a ∈ l := by
  rcases l with _ | ⟨x, xs⟩
  · simp at h
  · rw [List.head?_cons, Option.some.injEq] at h
    subst h
    simp

theorem findSep_none_of_no_space (l : Str) (h : ∀ c ∈ l, c ≠ ' ') :
    findSep sepStr l = none := by
  induction l with
  | nil => rfl
  | cons c rest ih =>
    have hc : c ≠ ' ' := h c (by simp)
    rw [findSep_cons]
    have hpre : sepStr.isPrefixOf (c :: rest) = false := by
      rw [sepStr]
      simp only [s2l, List.isPrefixOf, Bool.and_eq_false_iff]
      left
      simpa [beq_eq_false_iff_ne] using (Ne.symm hc)
    rw [hpre]
    simp [ih (fun x hx => h x (by simp [hx]))]

theorem findSep_boundary (l r : Str) (h : ∀ c ∈ l, c ≠ ' ') :
    findSep sepStr (l ++ sepStr ++ r) = some (l, r) := by
  induction l with
  | nil =>
    show findSep sepStr (' ' :: ('-' :: (' ' :: r))) = some ([], r)
    rw [findSep_cons]
    have hpre : sepStr.isPrefixOf (' ' :: ('-' :: (' ' :: r))) = true := by
      rw [sepStr]
      simp [s2l, List.isPrefixOf]
    rw [hpre]
    simp [sepStr, s2l]
  | cons c rest ih =>
    have hc : c ≠ ' ' := h c (by simp)
    rw [List.cons_append, List.cons_append, findSep_cons]
    have hpre : sepStr.isPrefixOf (c :: (rest ++ sepStr ++ r)) = false := by
      rw [sepStr]
      simp only [s2l, List.isPrefixOf, Bool.and_eq_false_iff]
      left
      simpa [beq_eq_false_iff_ne] using (Ne.symm hc)
    rw [hpre]
    simp only [Bool.false_eq_true, if_false]
    rw [ih (fun x hx => h x (by simp [hx]))]
    rfl

theorem pyStrip_eq_self (l : Str) (hne : l ≠ [])
    (hhead : ∀ c, l.head? = some c → c.isWhitespace = false)
    (hlast : ∀ c, l.getLast? = some c → c.isWhitespace = false) :
    pyStrip l = l := by
  rcases l with _ | ⟨c, t⟩
  · exact absurd rfl hne
  · have h0 : ¬(c.isWhitespace = true) := by
      simp [hhead c rfl]
    rw [pyStrip, List.dropWhile_cons_of_neg h0]
    rcases hr : (c :: t).reverse with _ | ⟨e, es⟩
    · exact absurd (List.reverse_eq_nil_iff.mp hr) (by simp)
    · have hlaste : (c :: t).getLast? = some e := by
        rw [← List.head?_reverse, hr]
        rfl
      have he : ¬(e.isWhitespace = true) := by
        simp [hlast e hlaste]
      rw [List.dropWhile_cons_of_neg he, ← hr, List.reverse_reverse]

theorem pad4_ne_nil (n : Nat) : pad4 n ≠ [] := by
  rw [pad4]
  intro h
  rw [List.append_eq_nil] at h
  exact natDigits_ne_nil n h.2

theorem pyIsAlpha_elim (s : Str) (h : pyIsAlpha s = true) :
    s ≠ [] ∧ ∀ c ∈ s, c.isAlpha = true := by
  rw [pyIsAlpha, Bool.and_eq_true, Bool.not_eq_true', List.isEmpty_eq_false,
    List.all_eq_true] at h
  exact h

theorem pyIsDigit_elim (s : Str) (h : pyIsDigit s = true) :
    s ≠ [] ∧ ∀ c ∈ s, c.isDigit = true := by
  rw [pyIsDigit, Bool.and_eq_true, Bool.not_eq_true', List.isEmpty_eq_false,
    List.all_eq_true] at h
  exact h

theorem identChar_props (f s t : Str) (n : Nat)
    (hf : pyIsAlpha f = true) (hs : pyIsDigit s = true) (ht : pyIsAlpha t = true) :
    ∀ c ∈ pyUpper f ++ s ++ pyUpper t ++ pad4 n,
      c ≠ ' ' ∧ c.isWhitespace = false := by
  intro c hc
  have halpha_or : c.isAlpha = true ∨ c.isDigit = true := by
    simp only [List.mem_append] at hc
    rcases hc with ((hh | hh) | hh) | hh
    · rw [pyUpper, List.mem_map] at hh
      obtain ⟨c0, hc0, rfl⟩ := hh
      exact Or.inl (toUpper_isAlpha c0 ((pyIsAlpha_elim f hf).2 c0 hc0))
    · exact Or.inr ((pyIsDigit_elim s hs).2 c hh)
    · rw [pyUpper, List.mem_map] at hh
      obtain ⟨c0, hc0, rfl⟩ := hh
      exact Or.inl (toUpper_isAlpha c0 ((pyIsAlpha_elim t ht).2 c0 hc0))
    · exact Or.inr (pad4_all_digit n c hh)
  rcases halpha_or with ha | hd
  · exact ⟨isAlpha_ne_space c ha, isAlpha_not_whitespace c ha⟩
  · exact ⟨isDigit_ne_space c hd, isDigit_not_whitespace c hd⟩

theorem parseLine_ident (idv d : Str) (hidv_ne : idv ≠ [])
    (hchars : ∀ c ∈ idv, c ≠ ' ' ∧ c.isWhitespace = false)
    (hd_ne : d ≠ []) (hd : ∀ c ∈ d, c.isDigit = true) :
    parseLine (idv ++ sepStr ++ d) = some (d, idv) := by
  have hd_props : ∀ c ∈ d, c ≠ ' ' ∧ c.isWhitespace = false := fun c hc =>
    ⟨isDigit_ne_space c (hd c hc), isDigit_not_whitespace c (hd c hc)⟩
  have hline_ne : idv ++ (sepStr ++ d) ≠ [] := by
    simp [hidv_ne]
  have hstrip : pyStrip (idv ++ (sepStr ++ d)) = idv ++ (sepStr ++ d) := by
    refine pyStrip_eq_self _ hline_ne ?_ ?_
    · intro c hc
      rw [List.head?_append_of_ne_nil _ hidv_ne] at hc
      exact (hchars c (mem_of_head?_eq_some hc)).2
    · intro c hc
      rw [← List.append_assoc, List.getLast?_append_of_ne_nil _ hd_ne] at hc
      exact (hd_props c (List.mem_of_getLast?_eq_some hc)).2
  have hfind : findSep sepStr (idv ++ (sepStr ++ d)) = some (idv, d) := by
    rw [← List.append_assoc]
    exact findSep_boundary idv d (fun c hc => (hchars c hc).1)
  have hstrip_idv : pyStrip idv = idv :=
    pyStrip_eq_self idv hidv_ne
      (fun c hc => (hchars c (mem_of_head?_eq_some hc)).2)
      (fun c hc => (hchars c (List.mem_of_getLast?_eq_some hc)).2)
  have hstrip_d : pyStrip d = d :=
    pyStrip_eq_self d hd_ne
      (fun c hc => (hd_props c (mem_of_head?_eq_some hc)).2)
      (fun c hc => (hd_props c (List.mem_of_getLast?_eq_some hc)).2)
  have hempty : (idv ++ (sepStr ++ d)).isEmpty = false := by
    simpa [List.isEmpty_eq_false] using hline_ne
  have hsep : hasSep sepStr (idv ++ (sepStr ++ d)) = true := by
    rw [hasSep, hfind]
    rfl
  have hsplit : pySplit sepStr 2 (idv ++ (sepStr ++ d)) = [idv, d] := by
    have e1 : pySplit sepStr 2 (idv ++ (sepStr ++ d)) = idv :: pySplit sepStr 1 d := by
      show pySplit sepStr (1 + 1) (idv ++ (sepStr ++ d)) = _
      rw [pySplit_succ, hfind]
    have e2 : pySplit sepStr 1 d = [d] := by
      show pySplit sepStr (0 + 1) d = _
      rw [pySplit_succ, findSep_none_of_no_space d (fun c hc => (hd_props c hc).1)]
    rw [e1, e2]
  have h1 : idv.isEmpty = false := by simpa [List.isEmpty_eq_false] using hidv_ne
  have h2 : d.isEmpty = false := by simpa [List.isEmpty_eq_false] using hd_ne
  rw [parseLine, List.append_assoc]
  simp [hstrip, hempty, hsep, hsplit, hstrip_idv, hstrip_d, h1, h2]

theorem filterMap_eq_map_of_some {α β : Type} (l : List α) (f : α → Option β)
    (g : α → β) (h : ∀ a ∈ l, f a = some (g a)) : l.filterMap f = l.map g := by
  induction l with
  | nil => rfl
  | cons a rest ih =>
    rw [List.filterMap_cons, h a (by simp), List.map_cons,
      ih (fun x hx => h x (by simp [hx]))]

/-- C7: formatting every identifier produced by a valid
`generate_vehicle_numbers` run as the line `"<identifier> - <digits>"` and
converting those lines yields exactly one record per identifier, in the
same order, with the identifier in the second column. -/
theorem c7_roundtrip (first second third sd ed d fn : Str) (nums : List Str)
    (h1 : first.length = 2) (h2 : pyIsAlpha first = true)
    (h3 : second.length = 2) (h4 : pyIsDigit second = true)
    (h5 : third.length = 2) (h6 : pyIsAlpha third = true)
    (h7 : sd.length = 4) (h8 : pyIsDigit sd = true)
    (h9 : ed.length = 4) (h10 : pyIsDigit ed = true)
    (h11 : pyInt sd ≤ pyInt ed)
    (hd : pyIsDigit d = true)
    (hgen : generate_vehicle_numbers first second third sd ed = .ok (fn, nums)) :
    convert_txt_to_csv (nums.map (fun v => v ++ sepStr ++ d)) =
      { csvContent := some (headerRow :: nums.map (fun v => (d, v))),
        outcome := .ok () } := by
  rw [generate_single_eq first second third sd ed
    h1 h2 h3 h4 h5 h6 h7 h8 h9 h10 h11] at hgen
  rw [Except.ok.injEq, Prod.mk.injEq] at hgen
  obtain ⟨-, hnums⟩ := hgen
  subst hnums
  obtain ⟨hd_ne, hd_digits⟩ := pyIsDigit_elim d hd
  have hparse : ∀ v ∈ singleNums first second sd ed third,
      parseLine (v ++ sepStr ++ d) = some (d, v) := by
    intro v hv
    rw [singleNums, List.mem_map] at hv
    obtain ⟨num, -, rfl⟩ := hv
    refine parseLine_ident _ d ?_ (identChar_props first second third num h2 h4 h6)
      hd_ne hd_digits
    intro hcon
    have := congrArg List.length hcon
    simp [pyUpper_length, h1] at this
  have hnums_ne : singleNums first second sd ed third ≠ [] := by
    intro hcon
    have := congrArg List.length hcon
    rw [singleNums_length first second sd ed third h11] at this
    simp at this
  have hfm : ((singleNums first second sd ed third).map
      (fun v => v ++ sepStr ++ d)).filterMap parseLine =
      (singleNums first second sd ed third).map (fun v => (d, v)) := by
    rw [List.filterMap_map]
    exact filterMap_eq_map_of_some _ _ _ hparse
  rw [convert_txt_to_csv]
  have hlines_ne : ((singleNums first second sd ed third).map
      (fun v => v ++ sepStr ++ d)).isEmpty = false := by
    simp [List.isEmpty_eq_false, hnums_ne]
  rw [hlines_ne]
  simp only [Bool.false_eq_true, if_false]
  rw [hfm]
  have hrows_ne : ((singleNums first second sd ed third).map
      (fun v => (d, v))).isEmpty = false := by
    simp [List.isEmpty_eq_false, hnums_ne]
  rw [hrows_ne]
  simp

/-- Witness for C7: the three identifiers of the `("AB","12","CD",
"0001","0003")` run, each paired with the digits `555`. -/
theorem c7_roundtrip_witness :
    convert_txt_to_csv
        [s2l "AB12CD0001" ++ sepStr ++ s2l "555",
         s2l "AB12CD0002" ++ sepStr ++ s2l "555",
         s2l "AB12CD0003" ++ sepStr ++ s2l "555"] =
      { csvContent := some [headerRow,
          (s2l "555", s2l "AB12CD0001"), (s2l "555", s2l "AB12CD0002"),
          (s2l "555", s2l "AB12CD0003")],
        outcome := .ok () } := by
  have h := c7_roundtrip (s2l "AB") (s2l "12") (s2l "CD") (s2l "0001") (s2l "0003")
    (s2l "555") (s2l "vehicle_numbers_AB12CD.txt")
    [s2l "AB12CD0001", s2l "AB12CD0002", s2l "AB12CD0003"]
    (by decide) (by decide) (by decide) (by decide) (by decide) (by decide)
    (by decide) (by decide) (by decide) (by decide) (by decide) (by decide)
    (by decide)
  rw [List.map] at h
  simpa using h

/-! ### C8 and C10: cancellation, file lifecycle -/

theorem lookupFile_removeFile_self (p : Str) (fs : List (Str × FileData)) :
    lookupFile p (removeFile p fs) = none := by
  rw [lookupFile]
  have hfind : (removeFile p fs).find? (fun f => f.1 == p) = none := by
    rw [List.find?_eq_none]
    intro x hx
    rw [removeFile, List.mem_filter] at hx
    simpa using hx.2
  rw [hfind]
  rfl

theorem lookupFile_none_removeFile (p q : Str) (fs : List (Str × FileData))
    (h : lookupFile p fs = none) : lookupFile p (removeFile q fs) = none := by
  rw [lookupFile] at h ⊢
  have hfs : fs.find? (fun f => f.1 == p) = none := by
    rcases hf : fs.find? (fun f => f.1 == p) with - | x
    · exact hf
    · rw [hf] at h
      exact absurd h (by simp)
  have hfind : (removeFile q fs).find? (fun f => f.1 == p) = none := by
    rw [List.find?_eq_none] at hfs ⊢
    intro x hx
    rw [removeFile, List.mem_filter] at hx
    exact hfs x hx.1
  rw [hfind]
  rfl

theorem lookupFile_writeFile_self (p : Str) (d : FileData)
    (fs : List (Str × FileData)) :
    lookupFile p (writeFile p d fs) = some d := by
  rw [writeFile, lookupFile, List.find?_cons_of_pos _ (by simp)]
  rfl

theorem lookupFile_removeFile_ne (p q : Str) (hpq : p ≠ q)
    (fs : List (Str × FileData)) :
    lookupFile p (removeFile q fs) = lookupFile p fs := by
  rw [lookupFile, lookupFile, removeFile]
  induction fs with
  | nil => rfl
  | cons x rest ih =>
    by_cases hx : (x.1 != q) = true
    · by_cases hpx : (x.1 == p) = true
      · simp [List.filter_cons, hx, List.find?_cons, hpx]
      · have hpx' : (x.1 == p) = false := by simpa using hpx
        simp only [List.filter_cons, hx, if_true, List.find?_cons, hpx']
        exact ih
    · have hx' : (x.1 != q) = false := by simpa using hx
      have hxq : x.1 = q := by simpa using hx'
      have hpx : (x.1 == p) = false := by
        rw [hxq]
        simpa using (Ne.symm hpq)
      simp only [List.filter_cons, hx', Bool.false_eq_true, if_false,
        List.find?_cons, hpx]
      exact ih

/-- C8 counterexample: from the rename sub-phase of the TextToTable
workflow, the `/cancel` command clears every session field but leaves the
materialized artifacts untouched — the converted CSV is still on disk,
contradicting "deletes every artifact file already materialized". -/
theorem c8_cancel_keeps_artifact_counterexample :
    (cancel_command renamePhaseState).userData = {} ∧
    (cancel_command renamePhaseState).files = renamePhaseState.files ∧
    ((cancel_command renamePhaseState).files.any
      (fun f => f.1 == s2l "converted_FID.csv")) = true := by
  refine ⟨rfl, rfl, ?_⟩
  decide

/-- C8 (amended): every cancel path clears all accumulated session fields
and a subsequent workflow-start begins from that workflow's first step with
empty fields; but only the rename-phase cancel button (`csv_cancel`)
deletes the materialized artifacts — the global `/cancel` command (and the
`cancel_gen` button) leave the file area untouched. -/
theorem c8_cancel_behaviour_amended (st : BotState) :
    (cancel_command st).userData = {} ∧
    (cancel_command st).files = st.files ∧
    (cancel_gen_callback st).userData = {} ∧
    (cancel_gen_callback st).files = st.files ∧
    (start_command (cancel_command st)).userData =
      { mode := some Workflow.single, step := some Step.first_letters } ∧
    (batch_command (cancel_command st)).userData =
      { mode := some Workflow.batch, step := some Step.first_letters } ∧
    (txt2csv_command (cancel_command st)).userData =
      { mode := some Workflow.txt2csv, step := some Step.waiting_file } ∧
    (csv_cancel_callback st).userData = {} ∧
    (∀ p, st.userData.csv_file_path = some p →
      lookupFile p (csv_cancel_callback st).files = none) ∧
    (∀ p, st.userData.txt_file_path = some p →
      lookupFile p (csv_cancel_callback st).files = none) := by
  refine ⟨rfl, rfl, rfl, rfl, rfl, rfl, rfl, rfl, ?_, ?_⟩
  · intro p hp
    rw [csv_cancel_callback]
    simp only [hp]
    rcases st.userData.txt_file_path with - | q
    · exact lookupFile_removeFile_self p st.files
    · exact lookupFile_none_removeFile p q _ (lookupFile_removeFile_self p st.files)
  · intro p hp
    rw [csv_cancel_callback]
    simp only [hp]
    rcases st.userData.csv_file_path with - | q
    · exact lookupFile_removeFile_self p st.files
    · exact lookupFile_removeFile_self p _

/-- Witness for C8 (amended) at the rename-phase state. -/
theorem c8_cancel_behaviour_amended_witness :
    (cancel_command renamePhaseState).files = renamePhaseState.files ∧
    (csv_cancel_callback renamePhaseState).userData = {} ∧
    lookupFile (s2l "converted_FID.csv")
      (csv_cancel_callback renamePhaseState).files = none ∧
    lookupFile (s2l "temp_FID.txt")
      (csv_cancel_callback renamePhaseState).files = none := by
  obtain ⟨-, h2, -, -, -, -, -, h8, h9, h10⟩ :=
    c8_cancel_behaviour_amended renamePhaseState
  exact ⟨h2, h8, h9 (s2l "converted_FID.csv") (by decide),
    h10 (s2l "temp_FID.txt") (by decide)⟩

/-- C10: when the converter reports no valid records on a non-empty input,
the output CSV file exists holding exactly the header row, the document
handler's failure path removes only the downloaded TXT file (the
header-only CSV survives), and the session is left unchanged. -/
theorem c10_header_only_csv_survives (file_id file_name : Str)
    (content : List Str) (st : BotState)
    (hne : content ≠ []) (hnone : content.filterMap parseLine = []) :
    lookupFile (s2l "converted_" ++ file_id ++ s2l ".csv")
        (handle_document_convert file_id file_name content st).files =
      some (.table [headerRow]) ∧
    lookupFile (s2l "temp_" ++ file_id ++ s2l ".txt")
        (handle_document_convert file_id file_name content st).files = none ∧
    (handle_document_convert file_id file_name content st).userData =
      st.userData := by
  have hpq : s2l "converted_" ++ file_id ++ s2l ".csv" ≠
      s2l "temp_" ++ file_id ++ s2l ".txt" := by
    intro h
    have h1 : s2l "converted_" ++ file_id ++ s2l ".csv" =
        'c' :: (s2l "onverted_" ++ file_id ++ s2l ".csv") := rfl
    have h2 : s2l "temp_" ++ file_id ++ s2l ".txt" =
        't' :: (s2l "emp_" ++ file_id ++ s2l ".txt") := rfl
    rw [h1, h2] at h
    injection h with hc htl
    exact absurd hc (by decide)
  have hconv : convert_txt_to_csv content =
      { csvContent := some [headerRow], outcome := .error noValidRecordsMsg } := by
    rw [convert_txt_to_csv]
    have he : content.isEmpty = false := by
      simpa [List.isEmpty_eq_false] using hne
    simp [he, hnone]
  rw [handle_document_convert]
  simp only [hconv]
  refine ⟨?_, ?_, trivial⟩
  · rw [lookupFile_removeFile_ne _ _ hpq, lookupFile_writeFile_self]
  · rw [lookupFile_removeFile_self]

/-- Witness for C10: a one-line input with no separator. -/
theorem c10_header_only_csv_survives_witness :
    lookupFile (s2l "converted_X.csv")
        (handle_document_convert (s2l "X") (s2l "a.txt") [s2l "bad"] {}).files =
      some (.table [headerRow]) ∧
    lookupFile (s2l "temp_X.txt")
        (handle_document_convert (s2l "X") (s2l "a.txt") [s2l "bad"] {}).files =
      none := by
  have h := c10_header_only_csv_survives (s2l "X") (s2l "a.txt") [s2l "bad"] {}
    (by decide) (by decide)
  exact ⟨h.1, h.2.1⟩

/-! ### C9: delivery retry discipline -/

theorem sendLoopGo_zero (o : Nat → SendOutcome) (a : Nat) :
    sendLoopGo o a 0 = (0, 0, LoopExit.exhausted) := rfl

theorem sendLoopGo_succ (o : Nat → SendOutcome) (a rem : Nat) :
    sendLoopGo o a (rem + 1) =
      match o a with
      | .ok => (1, 0, LoopExit.delivered)
      | .fatal => (1, 0, LoopExit.raised)
      | .transient =>
        if rem = 0 then (1, 0, LoopExit.exhausted)
        else ((sendLoopGo o (a + 1) rem).1 + 1,
          (sendLoopGo o (a + 1) rem).2.1 + 1, (sendLoopGo o (a + 1) rem).2.2) := by
  rw [sendLoopGo]

theorem sendLoopGo_attempts_le (o : Nat → SendOutcome) :
    ∀ rem a, (sendLoopGo o a rem).1 ≤ rem := by
  intro rem
  induction rem with
  | zero =>
    intro a
    rw [sendLoopGo_zero]
  | succ rem ih =>
    intro a
    rw [sendLoopGo_succ]
    cases ho : o a
    · simp
    · by_cases hrem : rem = 0
      · simp [hrem]
      · have := ih (a + 1)
        simp only [hrem, if_false]
        omega
    · simp

theorem sendLoopGo_retry_transient (o : Nat → SendOutcome) :
    ∀ rem a i, i + 1 < (sendLoopGo o a rem).1 → o (a + i) = .transient := by
  intro rem
  induction rem with
  | zero =>
    intro a i h
    rw [sendLoopGo_zero] at h
    omega
  | succ rem ih =>
    intro a i h
    rw [sendLoopGo_succ] at h
    cases ho : o a
    · rw [ho] at h
      simp at h
    · rw [ho] at h
      by_cases hrem : rem = 0
      · simp [hrem] at h
      · simp only [hrem, if_false] at h
        rcases i with - | j
        · simpa using ho
        · have hj := ih (a + 1) j (by omega)
          have harr : a + (j + 1) = a + 1 + j := by omega
          rw [harr]
          exact hj
    · rw [ho] at h
      simp at h

theorem sendLoopGo_all_transient (o : Nat → SendOutcome) :
    ∀ rem a, 0 < rem → (∀ i, i < rem → o (a + i) = .transient) →
      sendLoopGo o a rem = (rem, rem - 1, LoopExit.exhausted) := by
  intro rem
  induction rem with
  | zero => omega
  | succ rem ih =>
    intro a hpos hall
    rw [sendLoopGo_succ]
    have h0 : o a = .transient := by simpa using hall 0 (by omega)
    rw [h0]
    by_cases hrem : rem = 0
    · subst hrem
      simp
    · have hrec := ih (a + 1) (by omega) (fun i hi => by
        have := hall (i + 1) (by omega)
        have harr : a + (i + 1) = a + 1 + i := by omega
        rwa [harr] at this)
      simp only [hrem, if_false, hrec]
      simp
      omega

theorem button_generate_send_attempts (o : Nat → SendOutcome) :
    (button_generate_send o).attempts = (sendAttempts o 3).1 := by
  rw [button_generate_send]
  rcases he : (sendAttempts o 3).2.2 <;> rfl

theorem send_csv_file_send_attempts (o : Nat → SendOutcome) :
    (send_csv_file_send o).attempts = (sendAttempts o 3).1 := by
  rw [send_csv_file_send]
  rcases he : (sendAttempts o 3).2.2 <;> rfl

theorem safe_reply_send_attempts (o : Nat → SendOutcome) :
    (safe_reply_send o).attempts = (sendAttempts o 2).1 := by
  rw [safe_reply_send]
  rcases he : (sendAttempts o 2).2.2 <;> rfl

/-- C9: every delivery loop makes at most its budget of attempts (3 for
documents, 2 for plain text), every attempt before the last was a transient
failure, backoffs are 2 time units (1 for text), and — unless an
unclassified exception propagates — the artifact is removed exactly once
and the session cleared exactly once, both on success and on exhaustion;
exhausting the budget on all-transient failures reports the failure, and
`send_csv_file` also removes the intermediate TXT exactly once. -/
theorem c9_delivery_retry (o : Nat → SendOutcome) :
    (button_generate_send o).attempts ≤ 3 ∧
    (send_csv_file_send o).attempts ≤ 3 ∧
    (safe_reply_send o).attempts ≤ 2 ∧
    (∀ i, i + 1 < (button_generate_send o).attempts → o i = .transient) ∧
    (∀ s ∈ (button_generate_send o).sleeps, s = 2) ∧
    (∀ s ∈ (safe_reply_send o).sleeps, s = 1) ∧
    ((button_generate_send o).raisedError = false →
      (button_generate_send o).fileRemovals = 1 ∧
      (button_generate_send o).sessionCleared = true) ∧
    ((send_csv_file_send o).raisedError = false →
      (send_csv_file_send o).fileRemovals = 1 ∧
      (send_csv_file_send o).txtRemovals = 1 ∧
      (send_csv_file_send o).sessionCleared = true) ∧
    ((∀ i, i < 3 → o i = .transient) →
      button_generate_send o =
        { attempts := 3, sleeps := [2, 2], fileRemovals := 1, txtRemovals := 0,
          sessionCleared := true, reportedFailure := true, delivered := false,
          raisedError := false }) ∧
    (o 0 = .ok →
      button_generate_send o =
        { attempts := 1, sleeps := [], fileRemovals := 1, txtRemovals := 0,
          sessionCleared := true, reportedFailure := false, delivered := true,
          raisedError := false }) := by
  refine ⟨?_, ?_, ?_, ?_, ?_, ?_, ?_, ?_, ?_, ?_⟩
  · rw [button_generate_send_attempts]
    exact sendLoopGo_attempts_le o 3 0
  · rw [send_csv_file_send_attempts]
    exact sendLoopGo_attempts_le o 3 0
  · rw [safe_reply_send_attempts]
    exact sendLoopGo_attempts_le o 2 0
  · intro i h
    rw [button_generate_send_attempts] at h
    have := sendLoopGo_retry_transient o 3 0 i h
    simpa using this
  · intro s hs
    rw [button_generate_send] at hs
    rcases he : (sendAttempts o 3).2.2 <;> rw [he] at hs <;>
      exact List.eq_of_mem_replicate hs
  · intro s hs
    rw [safe_reply_send] at hs
    rcases he : (sendAttempts o 2).2.2 <;> rw [he] at hs <;>
      exact List.eq_of_mem_replicate hs
  · intro hraised
    rw [button_generate_send] at hraised ⊢
    rcases he : (sendAttempts o 3).2.2 <;> rw [he] at hraised
    · exact ⟨rfl, rfl⟩
    · exact ⟨rfl, rfl⟩
    · exact Bool.noConfusion hraised
  · intro hraised
    rw [send_csv_file_send] at hraised ⊢
    rcases he : (sendAttempts o 3).2.2 <;> rw [he] at hraised
    · exact ⟨rfl, rfl, rfl⟩
    · exact ⟨rfl, rfl, rfl⟩
    · exact Bool.noConfusion hraised
  · intro hall
    have hloop : sendAttempts o 3 = (3, 2, LoopExit.exhausted) := by
      rw [sendAttempts]
      have := sendLoopGo_all_transient o 3 0 (by omega)
        (fun i hi => by simpa using hall i hi)
      simpa using this
    rw [button_generate_send, hloop]
    rfl
  · intro h0
    have hloop : sendAttempts o 3 = (1, 0, LoopExit.delivered) := by
      rw [sendAttempts]
      have hstep : sendLoopGo o 0 3 =
          match o 0 with
          | .ok => (1, 0, LoopExit.delivered)
          | .fatal => (1, 0, LoopExit.raised)
          | .transient =>
            if 2 = 0 then (1, 0, LoopExit.exhausted)
            else ((sendLoopGo o 1 2).1 + 1,
              (sendLoopGo o 1 2).2.1 + 1, (sendLoopGo o 1 2).2.2) :=
        sendLoopGo_succ o 0 2
      rw [hstep, h0]
    rw [button_generate_send, hloop]
    rfl

/-- Witness for C9: the all-transient and the first-try-success
environments. -/
theorem c9_delivery_retry_witness :
    button_generate_send (fun _ => SendOutcome.transient) =
      { attempts := 3, sleeps := [2, 2], fileRemovals := 1, txtRemovals := 0,
        sessionCleared := true, reportedFailure := true, delivered := false,
        raisedError := false } ∧
    button_generate_send (fun _ => SendOutcome.ok) =
      { attempts := 1, sleeps := [], fileRemovals := 1, txtRemovals := 0,
        sessionCleared := true, reportedFailure := false, delivered := true,
        raisedError := false } := by
  obtain ⟨-, -, -, -, -, -, -, -, hx, -⟩ :=
    c9_delivery_retry (fun _ => SendOutcome.transient)
  obtain ⟨-, -, -, -, -, -, -, -, -, hy⟩ :=
    c9_delivery_retry (fun _ => SendOutcome.ok)
  exact ⟨hx (fun i hi => rfl), hy rfl⟩

end VehBot
